import Mathlib

/-!
Shallow embedding of `src/server.py` (cisco-cli-mcp): the prompt detector
`detect_device_mode`, the `TelnetSessionManager` operations (`connect`,
`execute`, `list_sessions`, `disconnect`) and the adaptive read loop inside
`execute`.

Modelling conventions:
* Strings are Lean `String`s; the regex searches of the source are embedded as
  executable functions on `List Char` that realise the exact match semantics of
  the two Python patterns (both are anchored with `\s*$`, so a match exists iff
  the last non-whitespace character is `#` or `>` and the characters before it
  have the required shape; `re.search` then yields exactly that match).
* Python `\s` and `str.strip()` are modelled over the ASCII whitespace
  characters (space, tab, newline, carriage return, vertical tab, form feed).
* Times are naturals in milliseconds (the source uses float seconds; every
  constant in the source is a whole number of milliseconds).
* The transport is an oracle: each iteration of the read loop consumes one
  `PollStep` describing the event-loop clock at the top of the iteration and
  the outcome of the bounded read (data / timeout / other exception), plus the
  outcome of the grace read should it be taken in that iteration.
-/

/-! ### Character classes of the source regexes (ASCII, as in the source) -/

/-- `[A-Za-z0-9_-]` of the source patterns. -/
def isNameChar (c : Char) : Bool := c.isAlphanum || c == '_' || c == '-'

/-- `[a-z0-9-]` of the source patterns (the parenthesised sub-mode). -/
def isSubChar (c : Char) : Bool := c.isLower || c.isDigit || c == '-'

/-- Python `\s` / `str.strip` whitespace (ASCII set). -/
def isPySpace (c : Char) : Bool :=
  c == ' ' || c == '\t' || c == '\n' || c == '\r' || c == '\x0b' || c == '\x0c'

/-- The `[\r\n]` character class that anchors both prompt patterns. -/
def isCRLF (c : Char) : Bool := c == '\r' || c == '\n'

/-! ### String utilities used by the source -/

/-- `output.replace('\x08', '').replace(' \x08', '')` (server.py line 42 and
line 250/269).  After the first replace removes every backspace character,
the two-character pattern `' \x08'` no longer occurs, so the second replace
never changes anything; the composition is exactly this filter. -/
def stripEraseL (l : List Char) : List Char := l.filter (fun c => c != '\x08')

/-- Python `str.strip()` (ASCII whitespace, see header). -/
def pyStrip (l : List Char) : List Char :=
  ((l.dropWhile isPySpace).reverse.dropWhile isPySpace).reverse

/-- Python `str.split('\n')`: `[] ↦ [[]]`, separators produce empty pieces. -/
def splitNL : List Char → List (List Char)
  | [] => [[]]
  | c :: rest =>
    match splitNL rest with
    | [] => [[]]
    | h :: t => if c = '\n' then [] :: h :: t else (c :: h) :: t

/-! ### The two anchored prompt patterns

`detect_device_mode` (server.py lines 36-47) searches, in order,
`[\r\n]([A-Za-z0-9_-]+\([a-z0-9-]+\)[#>])\s*$` and
`[\r\n]([A-Za-z0-9_-]+[#>])\s*$` against the cleaned output and returns
`match.group(1).strip()` of the first that matches.  Because both patterns end
in `[#>]\s*$`, a match exists iff, reading the cleaned text from the right:
after the maximal run of whitespace comes `#` or `>`, before it the required
shape, and immediately before that shape a `\r` or `\n`.  The functions below
take the reversed text after that final `#`/`>` and produce the group. -/

/-- Tail of pattern 1 after its `[#>]`: reversed input must be
`')' ++ sub-run ++ '(' ++ name-run ++ CR/LF ++ anything`. -/
def pat1Group (p : Char) (rest : List Char) : Option (List Char) :=
  match rest with
  | [] => none
  | c :: r2 =>
    if c = ')' then
      if r2.takeWhile isSubChar = [] then none
      else
        match r2.drop (r2.takeWhile isSubChar).length with
        | [] => none
        | c2 :: r4 =>
          if c2 = '(' then
            if r4.takeWhile isNameChar = [] then none
            else
              match r4.drop (r4.takeWhile isNameChar).length with
              | [] => none
              | c3 :: _ =>
                if isCRLF c3 = true then
                  some ((r4.takeWhile isNameChar).reverse ++
                        '(' :: (r2.takeWhile isSubChar).reverse ++ [')', p])
                else none
          else none
    else none

/-- Tail of pattern 2 after its `[#>]`: reversed input must be
`name-run ++ CR/LF ++ anything`. -/
def pat2Group (p : Char) (rest : List Char) : Option (List Char) :=
  if rest.takeWhile isNameChar = [] then none
  else
    match rest.drop (rest.takeWhile isNameChar).length with
    | [] => none
    | c :: _ =>
      if isCRLF c = true then some ((rest.takeWhile isNameChar).reverse ++ [p])
      else none

/-- `re.search` of pattern 1 on the cleaned text, returning `group(1)`. -/
def tailPrompt1 (clean : List Char) : Option (List Char) :=
  match clean.reverse.dropWhile isPySpace with
  | [] => none
  | p :: rest => if p = '#' ∨ p = '>' then pat1Group p rest else none

/-- `re.search` of pattern 2 on the cleaned text, returning `group(1)`. -/
def tailPrompt2 (clean : List Char) : Option (List Char) :=
  match clean.reverse.dropWhile isPySpace with
  | [] => none
  | p :: rest => if p = '#' ∨ p = '>' then pat2Group p rest else none

/-- `re.match(r'^[A-Za-z0-9_-]+(\([a-z0-9-]+\))?[#>]$', line)` (server.py
line 53): the whole line is a name run, an optional parenthesised sub-mode
run, and a final `#` or `>`. -/
def matchPromptLine (l : List Char) : Bool :=
  if l.takeWhile isNameChar = [] then false
  else
    match l.drop (l.takeWhile isNameChar).length with
    | [] => false
    | c :: r2 =>
      if c = '#' ∨ c = '>' then decide (r2 = [])
      else
        if c = '(' then
          if r2.takeWhile isSubChar = [] then false
          else
            match r2.drop (r2.takeWhile isSubChar).length with
            | c2 :: c3 :: r4 => decide (c2 = ')' ∧ (c3 = '#' ∨ c3 = '>') ∧ r4 = [])
            | _ => false
        else false

/-- Fallback scan of `detect_device_mode` (server.py lines 50-54): split the
stripped cleaned text on newlines, walk the last (up to) five raw lines in
reverse order, return the first whose stripped form fully matches the prompt
grammar. -/
def fallbackScan (clean : List Char) : String :=
  match ((splitNL (pyStrip clean)).drop ((splitNL (pyStrip clean)).length - 5)).reverse.find?
      (fun ln => matchPromptLine (pyStrip ln)) with
  | some ln => String.mk (pyStrip ln)
  | none => "unknown"

/-- `detect_device_mode` on the character list of the input. -/
def detectCore (l : List Char) : String :=
  if l = [] then "unknown"
  else
    match tailPrompt1 (stripEraseL l) with
    | some g => String.mk (pyStrip g)
    | none =>
      match tailPrompt2 (stripEraseL l) with
      | some g => String.mk (pyStrip g)
      | none => fallbackScan (stripEraseL l)

/-- `detect_device_mode` (server.py lines 23-56). -/
def detect_device_mode (output : String) : String := detectCore output.data

/-! ### The read loop of `execute` (server.py lines 225-276) -/

/-- The combined end-of-output pattern of `execute` (line 230):
`[\r\n]([A-Za-z0-9_-]+(\([a-z0-9-]+\))?[#>])\s*$` — matches iff pattern 1 or
pattern 2 of the detector matches. -/
def promptMatch (clean : List Char) : Bool :=
  (tailPrompt1 clean).isSome || (tailPrompt2 clean).isSome

/-- The cleaned buffer `output.replace('\x08', '').replace(' \x08', '')`. -/
def cleanOf (s : String) : List Char := stripEraseL s.data

/-- Outcome of one bounded read attempt (`asyncio.wait_for(reader.read(4096),
timeout=0.1)`): data returned (possibly empty, at EOF), `asyncio.TimeoutError`,
or any other exception. -/
inductive ReadResult where
  | data (s : String)
  | timeout
  | err
deriving DecidableEq

/-- One iteration of the read loop: the event-loop clock at the top of the
iteration (ms), the outcome of the bounded read, and the outcome of the grace
read should this iteration reach it. -/
structure PollStep where
  now : Nat
  result : ReadResult
  grace : ReadResult
deriving DecidableEq

/-- How a run of the read loop ended. -/
inductive ExecExit where
  | deadline
  | promptData
  | promptSilence
  | starved
deriving DecidableEq

/-- Data yielded by a grace read (`if extra_data: output += extra_data`). -/
def graceYield : ReadResult → String
  | .data s => s
  | _ => ""

/-- The while loop of `execute` (server.py lines 232-276), over the remaining
poll trace, the time the last byte was received, and the accumulated output.
Mirrors the source exactly:
* top of the loop: if `now - start ≥ waitMs`, break with the accumulated output;
* data `s ≠ ""`: append, set last-data time to `now`; if the cleaned buffer
  matches the prompt pattern, sleep 200 ms and do one more bounded read (the
  grace read).  If that read yields data or times out, break (the timeout is
  caught by the inner `except asyncio.TimeoutError`); if it raises any other
  exception, the exception skips the `break` and is swallowed by the outer
  `except Exception`, so the loop continues polling;
* data `s = ""` (EOF): nothing happens, keep polling;
* read timeout: if at least 1000 ms of silence since the last byte and some
  output accumulated and the cleaned buffer matches, break;
* any other read exception: swallowed, keep polling.
`starved` marks exhaustion of the finite oracle trace (the real loop would
keep polling). -/
def execLoop (waitMs start : Nat) : List PollStep → Nat → String → String × ExecExit
  | [], _, out => (out, .starved)
  | step :: rest, lastData, out =>
    if waitMs ≤ step.now - start then (out, .deadline)
    else
      match step.result with
      | .data s =>
        if s = "" then execLoop waitMs start rest lastData out
        else
          if promptMatch (cleanOf (out ++ s)) = true then
            match step.grace with
            | .data s2 => (out ++ s ++ s2, .promptData)
            | .timeout => (out ++ s, .promptData)
            | .err => execLoop waitMs start rest step.now (out ++ s)
          else execLoop waitMs start rest step.now (out ++ s)
      | .timeout =>
        if 1000 ≤ step.now - lastData ∧ out ≠ "" ∧ promptMatch (cleanOf out) = true then
          (out, .promptSilence)
        else execLoop waitMs start rest lastData out
      | .err => execLoop waitMs start rest lastData out

/-! ### Slow-command deadline policy (server.py lines 200-217) -/

/-- The fixed list of slow-command keywords. -/
def long_running_commands : List String :=
  ["ping", "traceroute", "tracert", "show tech", "copy", "write", "reload", "debug"]

/-- `command.lower().strip()` (ASCII case folding, as in the source regexes). -/
def commandKey (command : String) : String :=
  String.mk (pyStrip (command.data.map Char.toLower))

/-- Python `str.startswith`. -/
def startsWithStr (s pre : String) : Bool := pre.data.isPrefixOf s.data

/-- The effective deadline: raised to at least 12000 ms when the lowered,
stripped command starts with a slow-command keyword (lines 213-217). -/
def effectiveWaitMs (command : String) (waitMs : Nat) : Nat :=
  if long_running_commands.any (fun c => startsWithStr (commandKey command) c) then
    max waitMs 12000
  else waitMs

/-! ### Sessions and the session manager -/

/-- `TelnetSession` (server.py lines 59-67); the reader/writer handles are
abstracted away (reads and writes are modelled by the oracle trace and the
write log). -/
structure TelnetSession where
  session_id : String
  host : String
  port : Nat
  connected_at : Nat
deriving DecidableEq

/-- `TelnetSession.to_dict` (server.py lines 69-76). -/
structure SessionSummary where
  sessionId : String
  host : String
  port : Nat
  connectedAt : Nat
deriving DecidableEq

def TelnetSession.to_dict (s : TelnetSession) : SessionSummary :=
  ⟨s.session_id, s.host, s.port, s.connected_at⟩

/-- `self.sessions`: a Python dict, modelled as an insertion-ordered
association list with unique keys. -/
structure ManagerState where
  sessions : List (String × TelnetSession)
deriving DecidableEq

/-- Outcome of `telnetlib3.open_connection` under `asyncio.wait_for`. -/
inductive OpenOutcome where
  | ok
  | timedOut
  | failed (msg : String)

/-- Result of `execute`: the (unchanged) manager state, the writes performed
on the session's transport, and the returned output or the raised error. -/
structure ExecOutcome where
  state : ManagerState
  writes : List String
  result : Except String String

namespace TelnetSessionManager

/-- `connect` (server.py lines 85-177).  `newId` is the fresh `uuid4` value,
`now` the creation timestamp, `openOut` the outcome of the bounded transport
open, and `initFailure` the exception message if one of the later
baseline-initialisation steps (the warm-up writes/drains, the drain reads, the
`end` or `terminal length 0` exchanges) raises a non-timeout exception — all of
those run inside the outer `try`, *after* `self.sessions[session_id] = session`
(line 115), and are converted by `except Exception` (line 176) into a
`ConnectionError` naming the endpoint.  The open-timeout path is converted by
`except asyncio.TimeoutError` (line 174). -/
def connect (st : ManagerState) (host : String) (port : Nat) (newId : String)
    (now : Nat) (openOut : OpenOutcome) (initFailure : Option String) :
    ManagerState × Except String String :=
  match openOut with
  | .timedOut => (st, .error ("连接超时: " ++ host ++ ":" ++ toString port))
  | .failed e => (st, .error ("连接失败: " ++ host ++ ":" ++ toString port ++ " - " ++ e))
  | .ok =>
    let st' : ManagerState := ⟨st.sessions ++ [(newId, ⟨newId, host, port, now⟩)]⟩
    match initFailure with
    | some e => (st', .error ("连接失败: " ++ host ++ ":" ++ toString port ++ " - " ++ e))
    | none => (st', .ok newId)

/-- `execute` (server.py lines 179-276): unknown session id raises
`ValueError` before anything is written; otherwise the command plus CRLF is
written and the read loop runs with the adjusted deadline.  `self.sessions` is
never mutated. -/
def execute (st : ManagerState) (sessionId command : String) (waitMs : Nat)
    (steps : List PollStep) (start : Nat) : ExecOutcome :=
  match st.sessions.lookup sessionId with
  | none => ⟨st, [], .error ("会话不存在: " ++ sessionId)⟩
  | some _ =>
    ⟨st, [command ++ "\r\n"],
     .ok (execLoop (effectiveWaitMs command waitMs) start steps start "").1⟩

/-- `list_sessions` (server.py lines 278-285). -/
def list_sessions (st : ManagerState) : List SessionSummary :=
  st.sessions.map (fun p => p.2.to_dict)

/-- `disconnect` (server.py lines 287-308).  `closeRaises` records whether
`writer.close()` raises; the `try/except Exception: pass` swallows it, so the
outcome never depends on it.  The entry is deleted either way. -/
def disconnect (st : ManagerState) (sessionId : String) (closeRaises : Bool) :
    ManagerState × Except String Bool :=
  match st.sessions.lookup sessionId with
  | none => (st, .error ("会话不存在: " ++ sessionId))
  | some _ => (⟨st.sessions.filter (fun p => p.1 != sessionId)⟩, .ok true)

end TelnetSessionManager

/-- The registry invariant: every key of the sessions mapping is the
`session_id` of the session it maps to. -/
def WF (st : ManagerState) : Prop := ∀ p ∈ st.sessions, p.1 = p.2.session_id

/-! ### Helper lemmas -/

theorem takeWhile_append_all {α} (p : α → Bool) {l₁ : List α} (l₂ : List α)
    (h : ∀ a ∈ l₁, p a = true) : (l₁ ++ l₂).takeWhile p = l₁ ++ l₂.takeWhile p := by
  induction l₁ with
  | nil => simp
  | cons a t ih =>
    have ha : p a = true := h a (by simp)
    simp only [List.cons_append, List.takeWhile_cons, ha, if_true]
    exact congrArg (a :: ·) (ih (fun x hx => h x (by simp [hx])))

theorem takeWhile_all {α} (p : α → Bool) {l : List α}
    (h : ∀ a ∈ l, p a = true) : l.takeWhile p = l := by
  have := takeWhile_append_all p ([] : List α) h
  simpa using this

theorem dropWhile_all_false {α} (p : α → Bool) {l : List α}
    (h : ∀ a ∈ l, p a = false) : l.dropWhile p = l := by
  cases l with
  | nil => rfl
  | cons a t => simp [List.dropWhile_cons, h a (by simp)]

theorem pyStrip_all {l : List Char} (h : ∀ a ∈ l, isPySpace a = false) :
    pyStrip l = l := by
  unfold pyStrip
  rw [dropWhile_all_false _ h,
      dropWhile_all_false _ (fun a ha => h a (List.mem_reverse.mp ha)),
      List.reverse_reverse]

theorem splitNL_no_nl {l : List Char} (h : ∀ c ∈ l, c ≠ '\n') : splitNL l = [l] := by
  induction l with
  | nil => rfl
  | cons c t ih =>
    have ht := ih (fun x hx => h x (by simp [hx]))
    simp [splitNL, ht, h c (by simp)]

theorem stripErase_of_no_bs {l : List Char} (h : ∀ c ∈ l, c ≠ '\x08') :
    stripEraseL l = l := by
  unfold stripEraseL
  rw [List.filter_eq_self]
  intro a ha
  simpa using h a ha

theorem nameChar_not_space {c : Char} (h : isNameChar c = true) : isPySpace c = false := by
  cases hs : isPySpace c with
  | false => rfl
  | true =>
    exfalso
    simp only [isPySpace, Bool.or_eq_true, beq_iff_eq] at hs
    rcases hs with ((((rfl | rfl) | rfl) | rfl) | rfl) | rfl <;> exact absurd h (by decide)

theorem subChar_not_space {c : Char} (h : isSubChar c = true) : isPySpace c = false := by
  cases hs : isPySpace c with
  | false => rfl
  | true =>
    exfalso
    simp only [isPySpace, Bool.or_eq_true, beq_iff_eq] at hs
    rcases hs with ((((rfl | rfl) | rfl) | rfl) | rfl) | rfl <;> exact absurd h (by decide)

theorem nameChar_ne {c : Char} (h : isNameChar c = true) :
    c ≠ '\x08' ∧ c ≠ '(' ∧ c ≠ ')' ∧ c ≠ '\r' ∧ c ≠ '\n' ∧ c ≠ '#' ∧ c ≠ '>' := by
  refine ⟨?_, ?_, ?_, ?_, ?_, ?_, ?_⟩ <;> (intro h'; subst h'; exact absurd h (by decide))

theorem subChar_ne {c : Char} (h : isSubChar c = true) :
    c ≠ '\x08' ∧ c ≠ '(' ∧ c ≠ ')' ∧ c ≠ '\n' := by
  refine ⟨?_, ?_, ?_, ?_⟩ <;> (intro h'; subst h'; exact absurd h (by decide))

theorem subChar_nameChar {c : Char} (h : isSubChar c = true) : isNameChar c = true := by
  simp only [isSubChar, Bool.or_eq_true] at h
  rcases h with (h | h) | h
  · simp [isNameChar, Char.isAlphanum, Char.isAlpha, h]
  · simp [isNameChar, Char.isAlphanum, h]
  · simp [isNameChar, h]

theorem crlf_not_name {c : Char} (h : isCRLF c = true) :
    isNameChar c = false ∧ c ≠ '\x08' ∧ isPySpace c = true := by
  simp only [isCRLF, Bool.or_eq_true, beq_iff_eq] at h
  rcases h with rfl | rfl <;> exact ⟨by decide, by decide, by decide⟩

theorem find?_eq_head?_filter {α} (p : α → Bool) (l : List α) :
    l.find? p = (l.filter p).head? := by
  induction l with
  | nil => rfl
  | cons a t ih =>
    cases ha : p a with
    | false =>
      rw [List.find?_cons_of_neg _ (by simp [ha]), List.filter_cons_of_neg (by simp [ha]), ih]
    | true =>
      rw [List.find?_cons_of_pos _ ha, List.filter_cons_of_pos ha]
      rfl

theorem map_filter_comm {α β} (f : α → β) (q : β → Bool) (l : List α) :
    (l.map f).filter q = (l.filter (fun x => q (f x))).map f := by
  induction l with
  | nil => rfl
  | cons a t ih => cases hq : q (f a) <;> simp [List.filter_cons, hq, ih]

theorem str_append_empty (s : String) : s ++ "" = s := String.append_empty s

theorem lookup_filter_self (l : List (String × TelnetSession)) (k : String) :
    (l.filter (fun p => p.1 != k)).lookup k = none := by
  induction l with
  | nil => rfl
  | cons a t ih =>
    by_cases hk : a.1 = k
    · simp [List.filter_cons, hk, ih]
    · have hbne : (a.1 != k) = true := by simp [hk]
      have hke : (k == a.1) = false := by simp [Ne.symm hk]
      simp [List.filter_cons, hbne, List.lookup, hke, ih]

theorem lookup_filter_other (l : List (String × TelnetSession)) (k k' : String)
    (h : k' ≠ k) :
    (l.filter (fun p => p.1 != k)).lookup k' = l.lookup k' := by
  induction l with
  | nil => rfl
  | cons a t ih =>
    obtain ⟨ak, av⟩ := a
    by_cases hk : ak = k
    · subst hk
      have hke : (k' == ak) = false := by simp [h]
      simp [List.filter_cons, List.lookup, hke, ih]
    · have hbne : (ak != k) = true := by simp [hk]
      by_cases hk' : k' = ak
      · subst hk'
        simp [List.filter_cons, hbne, List.lookup]
      · have hke : (k' == ak) = false := by simp [hk']
        simp [List.filter_cons, hbne, List.lookup, hke, ih]

/-! ### Claims about the read loop (C1, C2, C3) -/

/-- Claim C1, counterexample: the claim asserts that whenever a poll read
returns data and the cleaned accumulated buffer matches the prompt pattern,
`execute` performs one grace read and returns immediately.  In the source, if
the grace read raises a non-timeout exception, the exception skips the `break`
(it is swallowed by the outer `except Exception`), so the loop keeps polling
instead of returning: here the first step returns matching data but its grace
read errors, and the run goes on to exit by deadline on the second step. -/
theorem C1_cex :
    execLoop 2000 0 [⟨0, .data "a\nSW1#", .err⟩, ⟨5000, .timeout, .timeout⟩] 0 "" =
      ("a\nSW1#", .deadline) ∧
    promptMatch (cleanOf ("" ++ "a\nSW1#")) = true ∧
    ExecExit.deadline ≠ ExecExit.promptData := by
  refine ⟨by decide, by decide, by decide⟩

/-- Claim C1 (amended): whenever a poll read in `execute` returns (non-empty)
data before the deadline and the accumulated buffer, after stripping erase
sequences, matches the end-of-output prompt pattern, `execute` performs exactly
one grace read (a 200 ms wait followed by one more bounded read); provided that
grace read does not itself raise a non-timeout exception, it appends any data
the read yields and returns immediately — the remaining trace (the rest of the
deadline) is never consumed. -/
theorem C1_amended (w start : Nat) (step : PollStep) (rest : List PollStep)
    (lastData : Nat) (out s : String)
    (h1 : step.now - start < w) (h2 : step.result = .data s) (h3 : s ≠ "")
    (h4 : promptMatch (cleanOf (out ++ s)) = true) (h5 : step.grace ≠ .err) :
    execLoop w start (step :: rest) lastData out =
      (out ++ s ++ graceYield step.grace, .promptData) := by
  obtain ⟨nw, res, gr⟩ := step
  simp only at h1 h2 h4 h5
  subst h2
  rw [execLoop, if_neg (Nat.not_le.mpr h1)]
  simp only
  rw [if_neg h3, if_pos h4]
  cases gr with
  | data s2 => rfl
  | timeout => simp [graceYield, str_append_empty]
  | err => exact absurd rfl h5

/-- Witness for C1: a concrete matching read followed by a grace read that
yields a trailing fragment. -/
theorem C1_witness :
    execLoop 2000 0 [⟨0, .data "a\nSW1#", .data "!"⟩] 0 "" = ("a\nSW1#!", .promptData) := by
  have h := C1_amended 2000 0 ⟨0, .data "a\nSW1#", .data "!"⟩ [] 0 "" "a\nSW1#"
    (by decide) rfl (by decide) (by decide) (by decide)
  simpa using h

/-- Claim C2: after the command is written, `execute` never raises: (a) a
non-timeout read exception is swallowed and polling continues; (b) when the
deadline elapses the accumulated output is returned as a successful result;
(c) a non-timeout exception raised by the grace read is likewise swallowed and
polling continues; (d) for any known session and any poll trace the result of
`execute` is a success, never an error. -/
theorem C2_no_raise :
    (∀ (w start : Nat) (step : PollStep) (rest : List PollStep) (lastData : Nat) (out : String),
        step.now - start < w → step.result = .err →
        execLoop w start (step :: rest) lastData out = execLoop w start rest lastData out) ∧
    (∀ (w start : Nat) (step : PollStep) (rest : List PollStep) (lastData : Nat) (out : String),
        w ≤ step.now - start →
        execLoop w start (step :: rest) lastData out = (out, .deadline)) ∧
    (∀ (w start : Nat) (step : PollStep) (rest : List PollStep) (lastData : Nat) (out s : String),
        step.now - start < w → step.result = .data s → s ≠ "" →
        promptMatch (cleanOf (out ++ s)) = true → step.grace = .err →
        execLoop w start (step :: rest) lastData out = execLoop w start rest step.now (out ++ s)) ∧
    (∀ (st : ManagerState) (sid cmd : String) (w : Nat) (steps : List PollStep)
        (start : Nat) (sess : TelnetSession), st.sessions.lookup sid = some sess →
        ∃ o, (TelnetSessionManager.execute st sid cmd w steps start).result = .ok o) := by
  refine ⟨?_, ?_, ?_, ?_⟩
  · intro w start step rest lastData out h1 h2
    obtain ⟨nw, res, gr⟩ := step
    simp only at h1 h2
    subst h2
    rw [execLoop, if_neg (Nat.not_le.mpr h1)]
  · intro w start step rest lastData out h1
    obtain ⟨nw, res, gr⟩ := step
    simp only at h1
    rw [execLoop, if_pos h1]
  · intro w start step rest lastData out s h1 h2 h3 h4 h5
    obtain ⟨nw, res, gr⟩ := step
    simp only at h1 h2 h4 h5
    subst h2
    subst h5
    rw [execLoop, if_neg (Nat.not_le.mpr h1)]
    simp only
    rw [if_neg h3, if_pos h4]
  · intro st sid cmd w steps start sess h
    refine ⟨(execLoop (effectiveWaitMs cmd w) start steps start "").1, ?_⟩
    unfold TelnetSessionManager.execute
    rw [h]

/-- Witness for C2: each conjunct applied at a concrete input. -/
theorem C2_witness :
    execLoop 500 0 [⟨0, .err, .timeout⟩] 0 "x" = execLoop 500 0 [] 0 "x" ∧
    execLoop 500 0 [⟨700, .timeout, .timeout⟩] 0 "x" = ("x", .deadline) ∧
    execLoop 2000 0 [⟨0, .data "a\nSW1#", .err⟩] 0 "" = execLoop 2000 0 [] 0 "a\nSW1#" ∧
    ∃ o, (TelnetSessionManager.execute ⟨[("a", ⟨"a", "h", 23, 0⟩)]⟩ "a" "c" 1 [] 0).result
          = .ok o := by
  refine ⟨?_, ?_, ?_, ?_⟩
  · exact C2_no_raise.1 500 0 ⟨0, .err, .timeout⟩ [] 0 "x" (by decide) rfl
  · exact C2_no_raise.2.1 500 0 ⟨700, .timeout, .timeout⟩ [] 0 "x" (by decide)
  · have h := C2_no_raise.2.2.1 2000 0 ⟨0, .data "a\nSW1#", .err⟩ [] 0 "" "a\nSW1#"
      (by decide) rfl (by decide) (by decide) rfl
    simpa using h
  · exact C2_no_raise.2.2.2 ⟨[("a", ⟨"a", "h", 23, 0⟩)]⟩ "a" "c" 1 [] 0 ⟨"a", "h", 23, 0⟩ rfl

/-- Claim C3: on a read timeout with at least one second of silence since the
last received byte and non-empty accumulated output, the cleaned buffer is
re-tested against the prompt pattern; if it matches, the loop returns the
accumulated output immediately (no grace read, nothing appended, the remaining
trace is never consumed). -/
theorem C3_silence (w start : Nat) (step : PollStep) (rest : List PollStep)
    (lastData : Nat) (out : String)
    (h1 : step.now - start < w) (h2 : step.result = .timeout)
    (h3 : 1000 ≤ step.now - lastData) (h4 : out ≠ "")
    (h5 : promptMatch (cleanOf out) = true) :
    execLoop w start (step :: rest) lastData out = (out, .promptSilence) := by
  obtain ⟨nw, res, gr⟩ := step
  simp only at h1 h2 h3
  subst h2
  rw [execLoop, if_neg (Nat.not_le.mpr h1)]
  simp only
  rw [if_pos ⟨h3, h4, h5⟩]

/-- Witness for C3: a concrete silent-confirmation exit. -/
theorem C3_witness :
    execLoop 2000 0 [⟨1200, .timeout, .timeout⟩] 100 "x\nSW1#" = ("x\nSW1#", .promptSilence) :=
  C3_silence 2000 0 ⟨1200, .timeout, .timeout⟩ [] 100 "x\nSW1#"
    (by decide) rfl (by decide) (by decide) (by decide)

/-! ### Claim C4: slow-command deadline policy -/

/-- Claim C4, counterexample: the source classifies on
`command.lower().strip()`, so a command with leading whitespace such as
`" ping"` — which does not begin (case-insensitively) with any keyword — still
has its wait raised to 12000 ms, contradicting the claim's second half. -/
theorem C4_cex :
    effectiveWaitMs " ping" 1000 = 12000 ∧
    (∀ k ∈ long_running_commands,
        startsWithStr (String.mk (" ping".data.map Char.toLower)) k = false) ∧
    (12000 : Nat) ≠ 1000 := by
  refine ⟨by decide, by decide, by decide⟩

/-- Claim C4 (amended): a command whose lowercased, whitespace-stripped form
begins with one of the fixed slow-command keywords executes with an effective
wait of `max (caller value) 12000` (hence at least 12000 ms); a command whose
lowercased, stripped form begins with no keyword keeps the caller-supplied
wait unchanged. -/
theorem C4_amended (command : String) (waitMs : Nat) :
    ((∃ k ∈ long_running_commands, startsWithStr (commandKey command) k = true) →
      effectiveWaitMs command waitMs = max waitMs 12000 ∧
      12000 ≤ effectiveWaitMs command waitMs) ∧
    ((∀ k ∈ long_running_commands, startsWithStr (commandKey command) k = false) →
      effectiveWaitMs command waitMs = waitMs) := by
  constructor
  · rintro ⟨k, hk, hs⟩
    have hany : long_running_commands.any (fun c => startsWithStr (commandKey command) c) = true :=
      List.any_eq_true.mpr ⟨k, hk, hs⟩
    refine ⟨?_, ?_⟩
    · rw [effectiveWaitMs, if_pos hany]
    · rw [effectiveWaitMs, if_pos hany]
      exact le_max_right _ _
  · intro h
    have hany : ¬ (long_running_commands.any (fun c => startsWithStr (commandKey command) c) = true) := by
      intro hx
      obtain ⟨k, hk, hks⟩ := List.any_eq_true.mp hx
      rw [h k hk] at hks
      exact Bool.false_ne_true hks
    rw [effectiveWaitMs, if_neg hany]

/-- Witness for C4: a slow command (case-insensitive) and a plain command. -/
theorem C4_witness :
    effectiveWaitMs "Ping 10.0.0.1" 500 = max 500 12000 ∧
    effectiveWaitMs "show ip route" 700 = 700 := by
  constructor
  · exact ((C4_amended "Ping 10.0.0.1" 500).1 ⟨"ping", by decide, by decide⟩).1
  · exact (C4_amended "show ip route" 700).2 (by decide)

/-! ### Claim C5: unknown session id -/

/-- Claim C5: `execute` on a session id not present in the registry fails with
the unknown-session error, performs no writes to any transport (the write log
is empty) and leaves the registry unchanged. -/
theorem C5_unknown_session (st : ManagerState) (sid cmd : String) (w : Nat)
    (steps : List PollStep) (start : Nat) (h : st.sessions.lookup sid = none) :
    TelnetSessionManager.execute st sid cmd w steps start =
      ⟨st, [], .error ("会话不存在: " ++ sid)⟩ := by
  unfold TelnetSessionManager.execute
  rw [h]

/-- Witness for C5 at a concrete registry that does not contain the id. -/
theorem C5_witness :
    TelnetSessionManager.execute ⟨[("b", ⟨"b", "h", 23, 0⟩)]⟩ "s1" "show ver" 2000 [] 0 =
      ⟨⟨[("b", ⟨"b", "h", 23, 0⟩)]⟩, [], .error ("会话不存在: " ++ "s1")⟩ :=
  C5_unknown_session ⟨[("b", ⟨"b", "h", 23, 0⟩)]⟩ "s1" "show ver" 2000 [] 0 (by decide)

/-! ### Claim C6: connect failure semantics -/

/-- Claim C6, counterexample: the source registers the session (line 115)
*before* running the baseline-initialisation steps; when a later step raises,
`connect` reports the connection-failure error but the freshly registered
session remains in the registry, so the registry after the failed connect
differs from the registry before it. -/
theorem C6_cex :
    TelnetSessionManager.connect ⟨[]⟩ "h" 23 "id0" 0 .ok (some "boom") =
      (⟨[("id0", ⟨"id0", "h", 23, 0⟩)]⟩,
       .error ("连接失败: " ++ "h" ++ ":" ++ toString 23 ++ " - " ++ "boom")) ∧
    (⟨[("id0", ⟨"id0", "h", 23, 0⟩)]⟩ : ManagerState) ≠ ⟨[]⟩ := by
  refine ⟨rfl, by decide⟩

/-- Claim C6 (amended): whenever `connect` fails it reports a
connection-failure error whose message contains the endpoint `host:port`; if
the transport open fails or times out, no session is registered (the registry
is returned unchanged); if a later baseline-initialisation step raises, the
newly created session remains registered under the fresh id.  A successful
connect registers exactly that session. -/
theorem C6_amended (st : ManagerState) (host : String) (port : Nat)
    (newId : String) (now : Nat) (ifl : Option String) (e : String) :
    (∃ a b, TelnetSessionManager.connect st host port newId now .timedOut ifl =
        (st, .error (a ++ (host ++ ":" ++ toString port) ++ b))) ∧
    (∃ a b, TelnetSessionManager.connect st host port newId now (.failed e) ifl =
        (st, .error (a ++ (host ++ ":" ++ toString port) ++ b))) ∧
    (∃ a b, TelnetSessionManager.connect st host port newId now .ok (some e) =
        (⟨st.sessions ++ [(newId, ⟨newId, host, port, now⟩)]⟩,
         .error (a ++ (host ++ ":" ++ toString port) ++ b))) ∧
    TelnetSessionManager.connect st host port newId now .ok none =
        (⟨st.sessions ++ [(newId, ⟨newId, host, port, now⟩)]⟩, .ok newId) := by
  refine ⟨⟨"连接超时: ", "", ?_⟩, ⟨"连接失败: ", " - " ++ e, ?_⟩,
         ⟨"连接失败: ", " - " ++ e, ?_⟩, rfl⟩
  · simp [TelnetSessionManager.connect, String.append_assoc, str_append_empty]
  · simp [TelnetSessionManager.connect, String.append_assoc]
  · simp [TelnetSessionManager.connect, String.append_assoc]

/-! ### Claim C9: disconnect -/

/-- Claim C9: `disconnect` on a registered session id reports success, deletes
the registry entry (whether or not closing the transport raises — the outcome
is independent of `closeRaises`), and any subsequent `execute` on that id
fails with the unknown-session error. -/
theorem C9_disconnect (st : ManagerState) (sid : String) (sess : TelnetSession)
    (b : Bool) (cmd : String) (w : Nat) (steps : List PollStep) (start : Nat)
    (h : st.sessions.lookup sid = some sess) :
    (TelnetSessionManager.disconnect st sid b).2 = .ok true ∧
    (TelnetSessionManager.disconnect st sid b).1.sessions.lookup sid = none ∧
    TelnetSessionManager.disconnect st sid b = TelnetSessionManager.disconnect st sid (!b) ∧
    (TelnetSessionManager.execute (TelnetSessionManager.disconnect st sid b).1
        sid cmd w steps start).result = .error ("会话不存在: " ++ sid) := by
  have hdis : TelnetSessionManager.disconnect st sid b =
      (⟨st.sessions.filter (fun p => p.1 != sid)⟩, .ok true) := by
    unfold TelnetSessionManager.disconnect
    rw [h]
  have hdis' : TelnetSessionManager.disconnect st sid (!b) =
      (⟨st.sessions.filter (fun p => p.1 != sid)⟩, .ok true) := by
    unfold TelnetSessionManager.disconnect
    rw [h]
  refine ⟨by rw [hdis], ?_, by rw [hdis, hdis'], ?_⟩
  · rw [hdis]
    exact lookup_filter_self _ _
  · rw [hdis]
    unfold TelnetSessionManager.execute
    rw [lookup_filter_self]

/-- Witness for C9 at a concrete one-session registry. -/
theorem C9_witness :
    (TelnetSessionManager.disconnect ⟨[("a", ⟨"a", "h", 23, 0⟩)]⟩ "a" true).2 = .ok true ∧
    (TelnetSessionManager.disconnect ⟨[("a", ⟨"a", "h", 23, 0⟩)]⟩ "a" true).1.sessions.lookup "a"
        = none ∧
    TelnetSessionManager.disconnect ⟨[("a", ⟨"a", "h", 23, 0⟩)]⟩ "a" true =
      TelnetSessionManager.disconnect ⟨[("a", ⟨"a", "h", 23, 0⟩)]⟩ "a" (!true) ∧
    (TelnetSessionManager.execute
        (TelnetSessionManager.disconnect ⟨[("a", ⟨"a", "h", 23, 0⟩)]⟩ "a" true).1
        "a" "c" 1 [] 0).result = .error ("会话不存在: " ++ "a") :=
  C9_disconnect ⟨[("a", ⟨"a", "h", 23, 0⟩)]⟩ "a" ⟨"a", "h", 23, 0⟩ true "c" 1 [] 0 (by decide)

/-! ### Claim C10: registry invariant and operation effects -/

/-- Claim C10: every operation preserves the invariant that each key of the
sessions mapping equals the `session_id` of the session it maps to; `connect`
either leaves the mapping unchanged (open failure) or inserts exactly one
entry under the fresh id; `disconnect` removes exactly the named entry (the
id maps to nothing afterwards, every other id is unaffected); `execute`
returns the mapping unchanged; `list_sessions` reports one summary per stored
session and, being a pure function of the state, mutates nothing. -/
theorem C10_registry (st : ManagerState) (hwf : WF st) :
    (∀ host port newId now oo ifl,
      WF (TelnetSessionManager.connect st host port newId now oo ifl).1 ∧
      ((TelnetSessionManager.connect st host port newId now oo ifl).1.sessions = st.sessions ∨
       (TelnetSessionManager.connect st host port newId now oo ifl).1.sessions =
         st.sessions ++ [(newId, ⟨newId, host, port, now⟩)])) ∧
    (∀ sid b,
      WF (TelnetSessionManager.disconnect st sid b).1 ∧
      (TelnetSessionManager.disconnect st sid b).1.sessions.lookup sid = none ∨
      st.sessions.lookup sid = none) ∧
    (∀ sid b k, k ≠ sid →
      (TelnetSessionManager.disconnect st sid b).1.sessions.lookup k = st.sessions.lookup k) ∧
    (∀ sid cmd w steps start,
      (TelnetSessionManager.execute st sid cmd w steps start).state = st) ∧
    (TelnetSessionManager.list_sessions st).length = st.sessions.length := by
  refine ⟨?_, ?_, ?_, ?_, ?_⟩
  · intro host port newId now oo ifl
    cases oo with
    | timedOut => exact ⟨hwf, Or.inl rfl⟩
    | failed e => exact ⟨hwf, Or.inl rfl⟩
    | ok =>
      have hwf' : WF ⟨st.sessions ++ [(newId, ⟨newId, host, port, now⟩)]⟩ := by
        intro p hp
        rcases List.mem_append.mp hp with hp | hp
        · exact hwf p hp
        · rcases List.mem_singleton.mp hp with rfl
          rfl
      cases ifl with
      | none => exact ⟨hwf', Or.inr rfl⟩
      | some e => exact ⟨hwf', Or.inr rfl⟩
  · intro sid b
    cases hl : st.sessions.lookup sid with
    | none => exact Or.inr rfl
    | some sess =>
      refine Or.inl ⟨?_, ?_⟩
      · unfold TelnetSessionManager.disconnect
        rw [hl]
        intro p hp
        exact hwf p (List.mem_of_mem_filter hp)
      · unfold TelnetSessionManager.disconnect
        rw [hl]
        exact lookup_filter_self _ _
  · intro sid b k hk
    unfold TelnetSessionManager.disconnect
    cases hl : st.sessions.lookup sid with
    | none => rfl
    | some sess => exact lookup_filter_other _ _ _ hk
  · intro sid cmd w steps start
    unfold TelnetSessionManager.execute
    cases st.sessions.lookup sid <;> rfl
  · exact List.length_map _ _

/-- Witness for C10 at a concrete well-formed registry. -/
theorem C10_witness :
    (TelnetSessionManager.execute ⟨[("a", ⟨"a", "h", 23, 0⟩)]⟩ "a" "c" 1 [] 0).state =
      ⟨[("a", ⟨"a", "h", 23, 0⟩)]⟩ ∧
    (TelnetSessionManager.list_sessions ⟨[("a", ⟨"a", "h", 23, 0⟩)]⟩).length =
      ([("a", (⟨"a", "h", 23, 0⟩ : TelnetSession))]).length := by
  have h := C10_registry ⟨[("a", ⟨"a", "h", 23, 0⟩)]⟩
    (by intro p hp; rcases List.mem_singleton.mp hp with rfl; rfl)
  exact ⟨h.2.2.2.1 "a" "c" 1 [] 0, h.2.2.2.2⟩

/-! ### Claim C8: the fallback scan of the detector -/

/-- A second definition of the fallback scan, following the (amended) spec
words rather than the source text, for refinement comparison: strip the
cleaned text, split it into lines, strip each line, and return the first of
the last up-to-five lines (taken in reverse order, empty lines included) that
fully matches the prompt grammar, else "unknown". -/
def fallbackSpecScan (clean : List Char) : String :=
  match (((splitNL (pyStrip clean)).map pyStrip).reverse.take 5).filter matchPromptLine with
  | l :: _ => String.mk l
  | [] => "unknown"

/-- The fallback scan as the claim words it: the same scan restricted to the
last up-to-five NON-EMPTY lines.  Used only to exhibit the divergence from the
source, which takes the last five raw lines, empty ones included. -/
def fallbackClaimScan (clean : List Char) : String :=
  match (((splitNL (pyStrip clean)).filter (fun ln => !ln.isEmpty)).drop
      (((splitNL (pyStrip clean)).filter (fun ln => !ln.isEmpty)).length - 5)).reverse.find?
      (fun ln => matchPromptLine (pyStrip ln)) with
  | some ln => String.mk (pyStrip ln)
  | none => "unknown"

/-- The source's fallback scan coincides with the spec-worded scan over raw
(possibly empty) lines. -/
theorem fallbackScan_eq_spec (clean : List Char) : fallbackScan clean = fallbackSpecScan clean := by
  unfold fallbackScan fallbackSpecScan
  have h1 : (((splitNL (pyStrip clean)).map pyStrip).reverse.take 5) =
      (((splitNL (pyStrip clean)).drop ((splitNL (pyStrip clean)).length - 5)).reverse).map
        pyStrip := by
    rw [← List.map_reverse, ← List.map_take, List.take_reverse]
  rw [h1, map_filter_comm, find?_eq_head?_filter]
  cases hB : (((splitNL (pyStrip clean)).drop ((splitNL (pyStrip clean)).length - 5)).reverse).filter
      (fun x => matchPromptLine (pyStrip x)) with
  | nil => rfl
  | cons a t => rfl

/-- Claim C8, counterexample: on `"p#\n\naa\nbb\ncc\ndd"` neither anchored
pattern matches; the last five NON-empty lines include the prompt-shaped
`"p#"`, so the claim's scan returns `"p#"` — but the source takes the last
five raw lines (the empty line included), `"p#"` is pushed out of the window,
and `detect_device_mode` returns `"unknown"`. -/
theorem C8_cex :
    tailPrompt1 (cleanOf "p#\n\naa\nbb\ncc\ndd") = none ∧
    tailPrompt2 (cleanOf "p#\n\naa\nbb\ncc\ndd") = none ∧
    detect_device_mode "p#\n\naa\nbb\ncc\ndd" = "unknown" ∧
    fallbackClaimScan (cleanOf "p#\n\naa\nbb\ncc\ndd") = "p#" ∧
    ("unknown" : String) ≠ "p#" := by
  refine ⟨by decide, by decide, by decide, by decide, by decide⟩

/-- Claim C8 (amended): `detect_device_mode` is total — it returns a label for
every input — and whenever neither end-anchored pattern matches the cleaned
text it performs the fallback scan over the last up-to-five lines (empty
lines included) of the whitespace-stripped cleaned text, in reverse order,
returning the first (stripped) line that fully matches the general prompt
grammar, and "unknown" when none does — here stated against the independently
worded `fallbackSpecScan`. -/
theorem C8_amended (s : String)
    (h1 : tailPrompt1 (cleanOf s) = none) (h2 : tailPrompt2 (cleanOf s) = none) :
    detect_device_mode s = fallbackSpecScan (cleanOf s) := by
  simp only [cleanOf] at h1 h2
  unfold detect_device_mode detectCore
  by_cases hs : s.data = []
  · rw [if_pos hs]
    have hc : cleanOf s = [] := by simp [cleanOf, stripEraseL, hs]
    rw [hc]
    rfl
  · rw [if_neg hs, h1, h2]
    exact fallbackScan_eq_spec _

/-- Witness for C8 at a concrete prompt-free input. -/
theorem C8_witness :
    tailPrompt1 (cleanOf "hello") = none ∧ tailPrompt2 (cleanOf "hello") = none ∧
    detect_device_mode "hello" = fallbackSpecScan (cleanOf "hello") :=
  ⟨by decide, by decide, C8_amended "hello" (by decide) (by decide)⟩

/-! ### Claim C7: tokens recognised by the detector -/

theorem takeWhile_name_boundary (n X : List Char) (c₀ : Char)
    (hall : ∀ c ∈ n, isNameChar c = true) (hc : isCRLF c₀ = true) :
    (n.reverse ++ c₀ :: X).takeWhile isNameChar = n.reverse := by
  have hcn : isNameChar c₀ = false := (crlf_not_name hc).1
  rw [takeWhile_append_all _ _ (fun a ha => hall a (List.mem_reverse.mp ha)),
      List.takeWhile_cons, hcn]
  simp

theorem takeWhile_name_rev (n : List Char) (hall : ∀ c ∈ n, isNameChar c = true) :
    (n.reverse).takeWhile isNameChar = n.reverse :=
  takeWhile_all _ (fun a ha => hall a (List.mem_reverse.mp ha))

theorem pat2Group_boundary (p c₀ : Char) (n X : List Char)
    (hn : n ≠ []) (hall : ∀ c ∈ n, isNameChar c = true) (hc : isCRLF c₀ = true) :
    pat2Group p (n.reverse ++ c₀ :: X) = some (n ++ [p]) := by
  have htw := takeWhile_name_boundary n X c₀ hall hc
  have hne : n.reverse ≠ [] := by simpa using hn
  unfold pat2Group
  rw [htw, if_neg hne, List.drop_left]
  simp [hc]

theorem pat2Group_end (p : Char) (n : List Char)
    (hall : ∀ c ∈ n, isNameChar c = true) :
    pat2Group p n.reverse = none := by
  have htw := takeWhile_name_rev n hall
  unfold pat2Group
  rw [htw]
  by_cases hne : n.reverse = []
  · rw [if_pos hne]
  · rw [if_neg hne, List.drop_length]

theorem pat1Group_namehead (p : Char) (n X : List Char)
    (hn : n ≠ []) (hall : ∀ c ∈ n, isNameChar c = true) :
    pat1Group p (n.reverse ++ X) = none := by
  obtain ⟨d, m, hd⟩ : ∃ d m, n.reverse = d :: m := by
    cases hrev : n.reverse with
    | nil => exact absurd (by simpa using hrev) hn
    | cons d m => exact ⟨d, m, rfl⟩
  have hdn : isNameChar d = true :=
    hall d (List.mem_reverse.mp (hd ▸ List.mem_cons_self d m))
  have hdne : d ≠ ')' := (nameChar_ne hdn).2.2.1
  rw [hd, List.cons_append]
  unfold pat1Group
  dsimp only
  rw [if_neg hdne]

theorem pat1Group_boundary (p c₀ : Char) (n sub X : List Char)
    (hn : n ≠ []) (hall : ∀ c ∈ n, isNameChar c = true)
    (hsub : sub ≠ []) (hsall : ∀ c ∈ sub, isSubChar c = true)
    (hc : isCRLF c₀ = true) :
    pat1Group p (')' :: (sub.reverse ++ '(' :: (n.reverse ++ c₀ :: X)))
      = some (n ++ '(' :: (sub ++ [')', p])) := by
  have hpl : isSubChar '(' = false := by decide
  have htw1 : (sub.reverse ++ '(' :: (n.reverse ++ c₀ :: X)).takeWhile isSubChar
      = sub.reverse := by
    rw [takeWhile_append_all _ _ (fun a ha => hsall a (List.mem_reverse.mp ha)),
        List.takeWhile_cons, hpl]
    simp
  have hsne : sub.reverse ≠ [] := by simpa using hsub
  have htw2 := takeWhile_name_boundary n X c₀ hall hc
  have hnne : n.reverse ≠ [] := by simpa using hn
  unfold pat1Group
  dsimp only
  rw [if_pos rfl, htw1, if_neg hsne, List.drop_left]
  dsimp only
  rw [if_pos rfl, htw2, if_neg hnne, List.drop_left]
  simp [hc]

theorem pat1Group_end (p : Char) (n sub : List Char)
    (hall : ∀ c ∈ n, isNameChar c = true)
    (hsub : sub ≠ []) (hsall : ∀ c ∈ sub, isSubChar c = true) :
    pat1Group p (')' :: (sub.reverse ++ '(' :: n.reverse)) = none := by
  have hpl : isSubChar '(' = false := by decide
  have htw1 : (sub.reverse ++ '(' :: n.reverse).takeWhile isSubChar = sub.reverse := by
    rw [takeWhile_append_all _ _ (fun a ha => hsall a (List.mem_reverse.mp ha)),
        List.takeWhile_cons, hpl]
    simp
  have hsne : sub.reverse ≠ [] := by simpa using hsub
  have htw2 := takeWhile_name_rev n hall
  unfold pat1Group
  dsimp only
  rw [if_pos rfl, htw1, if_neg hsne, List.drop_left]
  dsimp only
  rw [if_pos rfl, htw2]
  by_cases hne : n.reverse = []
  · rw [if_pos hne]
  · rw [if_neg hne, List.drop_length]

theorem matchPromptLine_plain (q : Char) (n : List Char) (hq : q = '#' ∨ q = '>')
    (hn : n ≠ []) (hall : ∀ c ∈ n, isNameChar c = true) :
    matchPromptLine (n ++ [q]) = true := by
  have hqn : isNameChar q = false := by rcases hq with rfl | rfl <;> decide
  have htw : (n ++ [q]).takeWhile isNameChar = n := by
    rw [takeWhile_append_all _ _ hall, List.takeWhile_cons, hqn]
    simp
  unfold matchPromptLine
  rw [htw, if_neg hn, List.drop_left]
  dsimp only
  rw [if_pos hq]
  decide

theorem matchPromptLine_cfg (q : Char) (n sub : List Char) (hq : q = '#' ∨ q = '>')
    (hn : n ≠ []) (hall : ∀ c ∈ n, isNameChar c = true)
    (hsub : sub ≠ []) (hsall : ∀ c ∈ sub, isSubChar c = true) :
    matchPromptLine (n ++ '(' :: (sub ++ [')', q])) = true := by
  have hln : isNameChar '(' = false := by decide
  have htw : (n ++ '(' :: (sub ++ [')', q])).takeWhile isNameChar = n := by
    rw [takeWhile_append_all _ _ hall, List.takeWhile_cons, hln]
    simp
  have hrn : isSubChar ')' = false := by decide
  have htw2 : (sub ++ [')', q]).takeWhile isSubChar = sub := by
    rw [takeWhile_append_all _ _ hsall, List.takeWhile_cons, hrn]
    simp
  have hlq : ¬ (('(' : Char) = '#' ∨ ('(' : Char) = '>') := by decide
  unfold matchPromptLine
  rw [htw, if_neg hn, List.drop_left]
  dsimp only
  rw [if_neg hlq, if_pos rfl, htw2, if_neg hsub, List.drop_left]
  dsimp only
  simp [hq]

theorem fallbackScan_single (tok : List Char)
    (hs : ∀ c ∈ tok, isPySpace c = false) (hnl : ∀ c ∈ tok, c ≠ '\n')
    (hm : matchPromptLine tok = true) :
    fallbackScan tok = String.mk tok := by
  have h1 : pyStrip tok = tok := pyStrip_all hs
  unfold fallbackScan
  rw [h1, splitNL_no_nl hnl]
  simp [List.find?_cons, h1, hm]

theorem plainTok_facts (q : Char) (n : List Char) (hq : q = '#' ∨ q = '>')
    (hall : ∀ c ∈ n, isNameChar c = true) :
    (∀ c ∈ n ++ [q], isPySpace c = false) ∧
    (∀ c ∈ n ++ [q], c ≠ '\n') ∧
    (∀ c ∈ n ++ [q], c ≠ '\x08') := by
  have hdis : ∀ c ∈ n ++ [q], c ∈ n ∨ c = q := by
    intro c hc
    rcases List.mem_append.mp hc with h | h
    · exact Or.inl h
    · exact Or.inr (List.mem_singleton.mp h)
  refine ⟨?_, ?_, ?_⟩ <;> intro c hc <;> rcases hdis c hc with h | rfl
  · exact nameChar_not_space (hall c h)
  · rcases hq with rfl | rfl <;> decide
  · exact (nameChar_ne (hall c h)).2.2.2.2.1
  · rcases hq with rfl | rfl <;> decide
  · exact (nameChar_ne (hall c h)).1
  · rcases hq with rfl | rfl <;> decide

theorem cfgTok_facts (q : Char) (n sub : List Char) (hq : q = '#' ∨ q = '>')
    (hall : ∀ c ∈ n, isNameChar c = true) (hsall : ∀ c ∈ sub, isSubChar c = true) :
    (∀ c ∈ n ++ '(' :: (sub ++ [')', q]), isPySpace c = false) ∧
    (∀ c ∈ n ++ '(' :: (sub ++ [')', q]), c ≠ '\n') ∧
    (∀ c ∈ n ++ '(' :: (sub ++ [')', q]), c ≠ '\x08') := by
  have hdis : ∀ c ∈ n ++ '(' :: (sub ++ [')', q]),
      c ∈ n ∨ c = '(' ∨ c ∈ sub ∨ c = ')' ∨ c = q := by
    intro c hc
    rcases List.mem_append.mp hc with h | h
    · exact Or.inl h
    · rcases List.mem_cons.mp h with rfl | h
      · exact Or.inr (Or.inl rfl)
      · rcases List.mem_append.mp h with h | h
        · exact Or.inr (Or.inr (Or.inl h))
        · rcases List.mem_cons.mp h with rfl | h
          · exact Or.inr (Or.inr (Or.inr (Or.inl rfl)))
          · rcases List.mem_cons.mp h with rfl | h
            · exact Or.inr (Or.inr (Or.inr (Or.inr rfl)))
            · exact absurd h (List.not_mem_nil c)
  refine ⟨?_, ?_, ?_⟩ <;> intro c hc <;> rcases hdis c hc with h | rfl | h | rfl | rfl
  · exact nameChar_not_space (hall c h)
  · decide
  · exact subChar_not_space (hsall c h)
  · decide
  · rcases hq with rfl | rfl <;> decide
  · exact (nameChar_ne (hall c h)).2.2.2.2.1
  · decide
  · exact (subChar_ne (hsall c h)).2.2.2
  · decide
  · rcases hq with rfl | rfl <;> decide
  · exact (nameChar_ne (hall c h)).1
  · decide
  · exact (subChar_ne (hsall c h)).1
  · decide
  · rcases hq with rfl | rfl <;> decide

theorem detect_plain (q : Char) (n pre : List Char) (hq : q = '#' ∨ q = '>')
    (hn : n ≠ []) (hall : ∀ c ∈ n, isNameChar c = true)
    (hpre : pre = [] ∨ ∃ pre₀ c₀, pre = pre₀ ++ [c₀] ∧ isCRLF c₀ = true) :
    detectCore (pre ++ (n ++ [q])) = String.mk (n ++ [q]) := by
  obtain ⟨hsp, hnl, hbs⟩ := plainTok_facts q n hq hall
  have hqs : isPySpace q = false := hsp q (by simp)
  rcases hpre with rfl | ⟨pre₀, c₀, rfl, hc⟩
  · have hne : ([] : List Char) ++ (n ++ [q]) ≠ [] := by simp
    have hclean : stripEraseL ([] ++ (n ++ [q])) = n ++ [q] := by
      rw [List.nil_append]
      exact stripErase_of_no_bs hbs
    have hrl : (stripEraseL ([] ++ (n ++ [q]))).reverse.dropWhile isPySpace
        = q :: n.reverse := by
      rw [hclean]
      have h2 : (n ++ [q]).reverse = q :: n.reverse := by simp
      rw [h2, List.dropWhile_cons, hqs]
      simp
    have h1 : tailPrompt1 (stripEraseL ([] ++ (n ++ [q]))) = none := by
      unfold tailPrompt1
      rw [hrl]
      dsimp only
      rw [if_pos hq]
      have h := pat1Group_namehead q n [] hn hall
      rwa [List.append_nil] at h
    have h2 : tailPrompt2 (stripEraseL ([] ++ (n ++ [q]))) = none := by
      unfold tailPrompt2
      rw [hrl]
      dsimp only
      rw [if_pos hq]
      exact pat2Group_end q n hall
    unfold detectCore
    rw [if_neg hne, h1, h2]
    dsimp only
    rw [hclean]
    exact fallbackScan_single _ hsp hnl (matchPromptLine_plain q n hq hn hall)
  · have hcbs : c₀ ≠ '\x08' := (crlf_not_name hc).2.1
    have hne : (pre₀ ++ [c₀]) ++ (n ++ [q]) ≠ [] := by simp
    have hclean : stripEraseL ((pre₀ ++ [c₀]) ++ (n ++ [q]))
        = stripEraseL pre₀ ++ (c₀ :: (n ++ [q])) := by
      unfold stripEraseL
      rw [List.filter_append, List.filter_append,
          show ([c₀].filter (fun c => c != '\x08')) = [c₀] from by simp [hcbs],
          show ((n ++ [q]).filter (fun c => c != '\x08')) = n ++ [q] from
            List.filter_eq_self.mpr (by intro a ha; simpa using hbs a ha)]
      simp
    have hrl : (stripEraseL ((pre₀ ++ [c₀]) ++ (n ++ [q]))).reverse.dropWhile isPySpace
        = q :: (n.reverse ++ c₀ :: (stripEraseL pre₀).reverse) := by
      rw [hclean]
      have h2 : (stripEraseL pre₀ ++ (c₀ :: (n ++ [q]))).reverse
          = q :: (n.reverse ++ c₀ :: (stripEraseL pre₀).reverse) := by
        simp
      rw [h2, List.dropWhile_cons, hqs]
      simp
    have h1 : tailPrompt1 (stripEraseL ((pre₀ ++ [c₀]) ++ (n ++ [q]))) = none := by
      unfold tailPrompt1
      rw [hrl]
      dsimp only
      rw [if_pos hq]
      exact pat1Group_namehead q n _ hn hall
    have h2 : tailPrompt2 (stripEraseL ((pre₀ ++ [c₀]) ++ (n ++ [q])))
        = some (n ++ [q]) := by
      unfold tailPrompt2
      rw [hrl]
      dsimp only
      rw [if_pos hq]
      exact pat2Group_boundary q c₀ n _ hn hall hc
    unfold detectCore
    rw [if_neg hne, h1, h2]
    dsimp only
    rw [pyStrip_all hsp]

theorem detect_cfg (q : Char) (n sub pre : List Char) (hq : q = '#' ∨ q = '>')
    (hn : n ≠ []) (hall : ∀ c ∈ n, isNameChar c = true)
    (hsub : sub ≠ []) (hsall : ∀ c ∈ sub, isSubChar c = true)
    (hpre : pre = [] ∨ ∃ pre₀ c₀, pre = pre₀ ++ [c₀] ∧ isCRLF c₀ = true) :
    detectCore (pre ++ (n ++ '(' :: (sub ++ [')', q])))
      = String.mk (n ++ '(' :: (sub ++ [')', q])) := by
  obtain ⟨hsp, hnl, hbs⟩ := cfgTok_facts q n sub hq hall hsall
  have hqs : isPySpace q = false := by rcases hq with rfl | rfl <;> decide
  have hnr : isNameChar ')' = false := by decide
  rcases hpre with rfl | ⟨pre₀, c₀, rfl, hc⟩
  · have hne : ([] : List Char) ++ (n ++ '(' :: (sub ++ [')', q])) ≠ [] := by simp
    have hclean : stripEraseL ([] ++ (n ++ '(' :: (sub ++ [')', q])))
        = n ++ '(' :: (sub ++ [')', q]) := by
      rw [List.nil_append]
      exact stripErase_of_no_bs hbs
    have hrl : (stripEraseL ([] ++ (n ++ '(' :: (sub ++ [')', q])))).reverse.dropWhile isPySpace
        = q :: (')' :: (sub.reverse ++ '(' :: n.reverse)) := by
      rw [hclean]
      have h2 : (n ++ '(' :: (sub ++ [')', q])).reverse
          = q :: (')' :: (sub.reverse ++ '(' :: n.reverse)) := by
        simp
      rw [h2, List.dropWhile_cons, hqs]
      simp
    have h1 : tailPrompt1 (stripEraseL ([] ++ (n ++ '(' :: (sub ++ [')', q])))) = none := by
      unfold tailPrompt1
      rw [hrl]
      dsimp only
      rw [if_pos hq]
      exact pat1Group_end q n sub hall hsub hsall
    have h2 : tailPrompt2 (stripEraseL ([] ++ (n ++ '(' :: (sub ++ [')', q])))) = none := by
      unfold tailPrompt2
      rw [hrl]
      dsimp only
      rw [if_pos hq]
      unfold pat2Group
      rw [List.takeWhile_cons, hnr]
      simp
    unfold detectCore
    rw [if_neg hne, h1, h2]
    dsimp only
    rw [hclean]
    exact fallbackScan_single _ hsp hnl (matchPromptLine_cfg q n sub hq hn hall hsub hsall)
  · have hcbs : c₀ ≠ '\x08' := (crlf_not_name hc).2.1
    have hne : (pre₀ ++ [c₀]) ++ (n ++ '(' :: (sub ++ [')', q])) ≠ [] := by simp
    have hclean : stripEraseL ((pre₀ ++ [c₀]) ++ (n ++ '(' :: (sub ++ [')', q])))
        = stripEraseL pre₀ ++ (c₀ :: (n ++ '(' :: (sub ++ [')', q]))) := by
      unfold stripEraseL
      rw [List.filter_append, List.filter_append,
          show ([c₀].filter (fun c => c != '\x08')) = [c₀] from by simp [hcbs],
          show ((n ++ '(' :: (sub ++ [')', q])).filter (fun c => c != '\x08'))
              = n ++ '(' :: (sub ++ [')', q]) from
            List.filter_eq_self.mpr (by intro a ha; simpa using hbs a ha)]
      simp
    have hrl : (stripEraseL ((pre₀ ++ [c₀]) ++ (n ++ '(' :: (sub ++ [')', q])))).reverse.dropWhile
        isPySpace
        = q :: (')' :: (sub.reverse ++ '(' :: (n.reverse ++ c₀ :: (stripEraseL pre₀).reverse))) := by
      rw [hclean]
      have h2 : (stripEraseL pre₀ ++ (c₀ :: (n ++ '(' :: (sub ++ [')', q])))).reverse
          = q :: (')' :: (sub.reverse ++ '(' :: (n.reverse ++ c₀ :: (stripEraseL pre₀).reverse))) := by
        simp
      rw [h2, List.dropWhile_cons, hqs]
      simp
    have h1 : tailPrompt1 (stripEraseL ((pre₀ ++ [c₀]) ++ (n ++ '(' :: (sub ++ [')', q]))))
        = some (n ++ '(' :: (sub ++ [')', q])) := by
      unfold tailPrompt1
      rw [hrl]
      dsimp only
      rw [if_pos hq]
      exact pat1Group_boundary q c₀ n sub _ hn hall hsub hsall hc
    unfold detectCore
    rw [if_neg hne, h1]
    dsimp only
    rw [pyStrip_all hsp]

/-- Claim C7, counterexample: `"?SW1#"` ends in the token `SW1#` (with the
non-empty name `SW1`), yet `detect_device_mode` returns `"unknown"`: no
`\r`/`\n` precedes the token, so neither anchored pattern matches, and the
fallback line `"?SW1#"` fails the full-line grammar because of the `?`. -/
theorem C7_cex :
    "?SW1#".data = ['?'] ++ ("SW1".data ++ ['#']) ∧
    ("SW1".data ≠ [] ∧ ∀ c ∈ "SW1".data, isNameChar c = true) ∧
    detect_device_mode "?SW1#" = "unknown" ∧
    ("unknown" : String) ≠ String.mk ("SW1".data ++ ['#']) := by
  refine ⟨by decide, ⟨by decide, by decide⟩, by decide, by decide⟩

/-- Claim C7 (amended): for every text ending in `NAME#`, `NAME>`,
`NAME(config)#` or `NAME(config-if)#` — NAME a non-empty run of
alphanumerics, `_` or `-` — *where the token is preceded by nothing or by a
carriage return or line feed*, `detect_device_mode` returns exactly that
trailing token. -/
theorem C7_amended (pre n sfx : List Char)
    (hn : n ≠ []) (hall : ∀ c ∈ n, isNameChar c = true)
    (hsfx : sfx = ['#'] ∨ sfx = ['>'] ∨ sfx = "(config)#".data ∨ sfx = "(config-if)#".data)
    (hpre : pre = [] ∨ ∃ pre₀ c₀, pre = pre₀ ++ [c₀] ∧ isCRLF c₀ = true) :
    detect_device_mode (String.mk (pre ++ (n ++ sfx))) = String.mk (n ++ sfx) := by
  have hdm : detect_device_mode (String.mk (pre ++ (n ++ sfx)))
      = detectCore (pre ++ (n ++ sfx)) := rfl
  rw [hdm]
  rcases hsfx with rfl | rfl | rfl | rfl
  · exact detect_plain '#' n pre (Or.inl rfl) hn hall hpre
  · exact detect_plain '>' n pre (Or.inr rfl) hn hall hpre
  · have h : "(config)#".data = '(' :: ("config".data ++ [')', '#']) := by decide
    rw [h]
    exact detect_cfg '#' n "config".data pre (Or.inl rfl) hn hall (by decide) (by decide) hpre
  · have h : "(config-if)#".data = '(' :: ("config-if".data ++ [')', '#']) := by decide
    rw [h]
    exact detect_cfg '#' n "config-if".data pre (Or.inl rfl) hn hall (by decide) (by decide) hpre

/-- Witness for C7: a configuration-mode prompt preceded by a newline. -/
theorem C7_witness :
    detect_device_mode (String.mk ("x\n".data ++ ("SW1".data ++ "(config)#".data)))
      = String.mk ("SW1".data ++ "(config)#".data) :=
  C7_amended "x\n".data "SW1".data "(config)#".data (by decide) (by decide)
    (Or.inr (Or.inr (Or.inl rfl)))
    (Or.inr ⟨"x".data, '\n', by decide, by decide⟩)
